import Mathlib

/-!
Verification of the listarr watchlist scraper, centred on the MyAnimeList
series-root tracing algorithm (`traceToRootSeries`), the dedup ledger guards
of the two watchlist adapters, and the per-upstream rate limiters.

The upstream world (Jikan API responses, the id-lookup side table, poster and
film-page fetches, `Date` parsing) is modelled as explicit function parameters;
a fetch or parse that throws is modelled as the function returning `none`.
-/

namespace Listarr

/-- One target of a typed relation, as returned by the Jikan relations
endpoint (an element of a relation's `entry` array: `mal_id`, `type`). -/
structure RelationEntry where
  mal_id : Nat
  type : String
deriving DecidableEq, Repr

/-- One typed relation of an anime: the `relation` name plus its `entry`
targets. -/
structure Relation where
  relation : String
  entry : List RelationEntry
deriving DecidableEq, Repr

/-- The fields of the Jikan `/anime/{id}` response used by the tracer:
`data.type` and `data.episodes` (`episodes` is nullable). -/
structure AnimeData where
  type : String
  episodes : Option Nat
deriving DecidableEq, Repr

/-- The upstream relation graph as seen through the Jikan API.
`rel i = none` (resp. `det i = none`) models a `/anime/{i}/relations`
(resp. `/anime/{i}`) request that throws; `ids` is the finite list of ids the
API can answer detail requests for, used only to size the fuel of the walk. -/
structure Graph where
  ids : List Nat
  rel : Nat → Option (List Relation)
  det : Nat → Option AnimeData

/-- The in-memory dedup ledger indices (the `announced` sets of index.ts),
modelled as lists used as sets. -/
structure Announced where
  byKey : List String
  byMalId : List Nat
  byRootMalId : List Nat
deriving Repr

/-- The empty ledger. -/
def Announced.empty : Announced := ⟨[], [], []⟩

/-- JS condition `d.type === "TV" && d.episodes && d.episodes > 1`
(`null` and `0` episodes are falsy). -/
def isTVMulti (d : AnimeData) : Bool :=
  d.type == "TV" && (match d.episodes with
    | some n => decide (1 < n)
    | none => false)

/-- Predicate of the `relations.find` call in myanimelist.ts
`traceToRootSeries`. -/
def isParentRel (r : Relation) : Bool :=
  r.relation == "Parent Story" || r.relation == "Prequel" || r.relation == "Full Story"

/-- Outcome of the trace loop: the returned root, the ids reported through
`onIntermediaryFound` (in call order), and the final visited set. -/
structure TraceResult where
  root : Nat
  inter : List Nat
  visited : List Nat
deriving DecidableEq, Repr

/-- The body of the `while (true)` loop of myanimelist.ts `traceToRootSeries`,
with an explicit fuel argument (`none` = fuel exhausted; the wrapper supplies
enough fuel, see `traceAux_isSome`).  State: current id, visited set,
accumulated intermediaries (most recent first). -/
def traceAux (g : Graph) (announced : Announced) (malId : Nat) :
    Nat → Nat → List Nat → List Nat → Option TraceResult
  | 0, _, _, _ => none
  | fuel + 1, currentId, visited, acc =>
    if currentId ∈ visited then
      some ⟨currentId, acc.reverse, visited⟩
    else
      let visited1 := currentId :: visited
      match g.rel currentId with
      | none => some ⟨currentId, acc.reverse, visited1⟩
      | some relations =>
        match relations.find? isParentRel with
        | none => some ⟨currentId, acc.reverse, visited1⟩
        | some parentRelation =>
          match parentRelation.entry.head? with
          | none => some ⟨currentId, acc.reverse, visited1⟩
          | some parentEntry =>
            if parentEntry.mal_id ∈ announced.byRootMalId then
              some ⟨parentEntry.mal_id, acc.reverse, visited1⟩
            else
              let acc1 := if currentId ≠ malId then currentId :: acc else acc
              match g.det parentEntry.mal_id with
              | none => some ⟨currentId, acc1.reverse, visited1⟩
              | some parentAnime =>
                if isTVMulti parentAnime then
                  traceAux g announced malId fuel parentEntry.mal_id visited1 acc1
                else
                  some ⟨currentId, acc1.reverse, visited1⟩

/-- myanimelist.ts `traceToRootSeries(malId, announced, onIntermediaryFound)`:
returns the root id and the intermediaries reported along the way.  The fuel
`g.ids.length + 2` is never exhausted (`traceAux_isSome`), so the `none`
fallback is dead code. -/
def traceToRootSeries (g : Graph) (announced : Announced) (malId : Nat) :
    Nat × List Nat :=
  match traceAux g announced malId (g.ids.length + 2) malId [] [] with
  | some r => (r.root, r.inter)
  | none => (malId, [])

/-- One clause of the movie special case in the letterboxd.ts-file version of
`traceToRootSeries`: find the first relation named `name`; if it has a first
entry, fetch that entry's details (`none` = the fetch throws, aborting the
whole loop body) and test TV-with-multiple-episodes. -/
def checkTVRel (g : Graph) (relations : List Relation) (name : String) :
    Option Bool :=
  match relations.find? (fun r => r.relation == name) with
  | none => some false
  | some r =>
    match r.entry.head? with
    | none => some false
    | some e =>
      match g.det e.mal_id with
      | none => none
      | some d => some (isTVMulti d)

/-- The movie special case: sequentially check `Parent Story`, `Sequel`,
`Prequel` (all three are evaluated); `none` models a throw in any of the
three detail fetches; otherwise `some (hasTVParentStory || hasTVSequel ||
hasTVPrequel)`. -/
def movieGate (g : Graph) (relations : List Relation) : Option Bool :=
  match checkTVRel g relations "Parent Story" with
  | none => none
  | some hasTVParentStory =>
    match checkTVRel g relations "Sequel" with
    | none => none
    | some hasTVSequel =>
      match checkTVRel g relations "Prequel" with
      | none => none
      | some hasTVPrequel =>
        some (hasTVParentStory || hasTVSequel || hasTVPrequel)

/-- Predicate of the `relations.find` call in the letterboxd.ts-file version:
`Sequel` is additionally eligible when the original node is a movie. -/
def isParentRel2 (isOriginalMovie : Bool) (r : Relation) : Bool :=
  r.relation == "Parent Story" || r.relation == "Prequel" ||
    r.relation == "Full Story" || (isOriginalMovie && r.relation == "Sequel")

/-- Loop body of the letterboxd.ts-file version of `traceToRootSeries`
(the one taking `originalType`), with fuel.  The movie special case runs only
when `isOriginalMovie && currentId == malId`; a gate throw (`none`) and a
failed gate (`some false`) both return the current id, matching the
`catch` / standalone-movie returns of the source. -/
def traceAux2 (g : Graph) (announced : Announced) (malId : Nat)
    (isOriginalMovie : Bool) :
    Nat → Nat → List Nat → List Nat → Option TraceResult
  | 0, _, _, _ => none
  | fuel + 1, currentId, visited, acc =>
    if currentId ∈ visited then
      some ⟨currentId, acc.reverse, visited⟩
    else
      let visited1 := currentId :: visited
      match g.rel currentId with
      | none => some ⟨currentId, acc.reverse, visited1⟩
      | some relations =>
        match (if isOriginalMovie && currentId == malId then
                movieGate g relations else some true) with
        | none => some ⟨currentId, acc.reverse, visited1⟩
        | some false => some ⟨currentId, acc.reverse, visited1⟩
        | some true =>
          match relations.find? (isParentRel2 isOriginalMovie) with
          | none => some ⟨currentId, acc.reverse, visited1⟩
          | some parentRelation =>
            match parentRelation.entry.head? with
            | none => some ⟨currentId, acc.reverse, visited1⟩
            | some parentEntry =>
              if parentEntry.mal_id ∈ announced.byRootMalId then
                some ⟨parentEntry.mal_id, acc.reverse, visited1⟩
              else
                let acc1 := if currentId ≠ malId then currentId :: acc else acc
                match g.det parentEntry.mal_id with
                | none => some ⟨currentId, acc1.reverse, visited1⟩
                | some parentAnime =>
                  if isTVMulti parentAnime then
                    traceAux2 g announced malId isOriginalMovie fuel
                      parentEntry.mal_id visited1 acc1
                  else
                    some ⟨currentId, acc1.reverse, visited1⟩

/-- letterboxd.ts-file `traceToRootSeries(malId, originalType, announced,
onIntermediaryFound)`. -/
def traceToRootSeries2 (g : Graph) (announced : Announced)
    (originalType : String) (malId : Nat) : Nat × List Nat :=
  match traceAux2 g announced malId (originalType == "Movie")
      (g.ids.length + 2) malId [] [] with
  | some r => (r.root, r.inter)
  | none => (malId, [])

/-! Step lemmas: one equation per exit / continuation point of the v1 loop
body, used by several theorems below. -/

theorem traceAux_visited (g : Graph) (ann : Announced) (malId fuel cur : Nat)
    (vis acc : List Nat) (h : cur ∈ vis) :
    traceAux g ann malId (fuel + 1) cur vis acc = some ⟨cur, acc.reverse, vis⟩ := by
  simp [traceAux, h]

theorem traceAux_relNone (g : Graph) (ann : Announced) (malId fuel cur : Nat)
    (vis acc : List Nat) (h : cur ∉ vis) (hr : g.rel cur = none) :
    traceAux g ann malId (fuel + 1) cur vis acc =
      some ⟨cur, acc.reverse, cur :: vis⟩ := by
  simp [traceAux, h, hr]

theorem traceAux_findNone (g : Graph) (ann : Announced) (malId fuel cur : Nat)
    (vis acc : List Nat) (rels : List Relation) (h : cur ∉ vis)
    (hr : g.rel cur = some rels) (hf : rels.find? isParentRel = none) :
    traceAux g ann malId (fuel + 1) cur vis acc =
      some ⟨cur, acc.reverse, cur :: vis⟩ := by
  simp [traceAux, h, hr, hf]

theorem traceAux_entryNone (g : Graph) (ann : Announced) (malId fuel cur : Nat)
    (vis acc : List Nat) (rels : List Relation) (pr : Relation) (h : cur ∉ vis)
    (hr : g.rel cur = some rels) (hf : rels.find? isParentRel = some pr)
    (he : pr.entry.head? = none) :
    traceAux g ann malId (fuel + 1) cur vis acc =
      some ⟨cur, acc.reverse, cur :: vis⟩ := by
  simp [traceAux, h, hr, hf, he]

theorem traceAux_knownRoot (g : Graph) (ann : Announced) (malId fuel cur : Nat)
    (vis acc : List Nat) (rels : List Relation) (pr : Relation)
    (pe : RelationEntry) (h : cur ∉ vis) (hr : g.rel cur = some rels)
    (hf : rels.find? isParentRel = some pr) (he : pr.entry.head? = some pe)
    (hk : pe.mal_id ∈ ann.byRootMalId) :
    traceAux g ann malId (fuel + 1) cur vis acc =
      some ⟨pe.mal_id, acc.reverse, cur :: vis⟩ := by
  simp [traceAux, h, hr, hf, he, hk]

theorem traceAux_detNone (g : Graph) (ann : Announced) (malId fuel cur : Nat)
    (vis acc : List Nat) (rels : List Relation) (pr : Relation)
    (pe : RelationEntry) (h : cur ∉ vis) (hr : g.rel cur = some rels)
    (hf : rels.find? isParentRel = some pr) (he : pr.entry.head? = some pe)
    (hk : pe.mal_id ∉ ann.byRootMalId) (hd : g.det pe.mal_id = none) :
    traceAux g ann malId (fuel + 1) cur vis acc =
      some ⟨cur, (if cur ≠ malId then cur :: acc else acc).reverse, cur :: vis⟩ := by
  simp [traceAux, h, hr, hf, he, hk, hd]

theorem traceAux_continue (g : Graph) (ann : Announced) (malId fuel cur : Nat)
    (vis acc : List Nat) (rels : List Relation) (pr : Relation)
    (pe : RelationEntry) (d : AnimeData) (h : cur ∉ vis)
    (hr : g.rel cur = some rels) (hf : rels.find? isParentRel = some pr)
    (he : pr.entry.head? = some pe) (hk : pe.mal_id ∉ ann.byRootMalId)
    (hd : g.det pe.mal_id = some d) (htv : isTVMulti d = true) :
    traceAux g ann malId (fuel + 1) cur vis acc =
      traceAux g ann malId fuel pe.mal_id (cur :: vis)
        (if cur ≠ malId then cur :: acc else acc) := by
  simp [traceAux, h, hr, hf, he, hk, hd, htv]

theorem traceAux_stop (g : Graph) (ann : Announced) (malId fuel cur : Nat)
    (vis acc : List Nat) (rels : List Relation) (pr : Relation)
    (pe : RelationEntry) (d : AnimeData) (h : cur ∉ vis)
    (hr : g.rel cur = some rels) (hf : rels.find? isParentRel = some pr)
    (he : pr.entry.head? = some pe) (hk : pe.mal_id ∉ ann.byRootMalId)
    (hd : g.det pe.mal_id = some d) (htv : isTVMulti d = false) :
    traceAux g ann malId (fuel + 1) cur vis acc =
      some ⟨cur, (if cur ≠ malId then cur :: acc else acc).reverse, cur :: vis⟩ := by
  simp [traceAux, h, hr, hf, he, hk, hd, htv]

/-- Termination of the v1 walk: with fuel `|ids| + 2` and the detail endpoint
only answering ids in `g.ids`, the loop always reaches a `return`. -/
theorem traceAux_isSome (g : Graph) (ann : Announced) (malId : Nat)
    (hdom : ∀ i, i ∉ g.ids → g.det i = none) :
    ∀ fuel cur vis acc, cur ∈ malId :: g.ids →
      (∀ v ∈ vis, v ∈ malId :: g.ids) → vis.Nodup →
      g.ids.length + 2 ≤ fuel + vis.length →
      (traceAux g ann malId fuel cur vis acc).isSome := by
  intro fuel
  induction fuel with
  | zero =>
    intro cur vis acc _ hvis hnd hfuel
    exfalso
    have h1 : vis.toFinset.card = vis.length := List.toFinset_card_of_nodup hnd
    have h2 : vis.toFinset ⊆ (malId :: g.ids).toFinset := by
      intro x hx
      exact List.mem_toFinset.2 (hvis x (List.mem_toFinset.1 hx))
    have h3 := Finset.card_le_card h2
    have h4 := (malId :: g.ids).toFinset_card_le
    simp [List.length_cons] at h3 h4 hfuel
    omega
  | succ fuel ih =>
    intro cur vis acc hcur hvis hnd hfuel
    by_cases hcv : cur ∈ vis
    · rw [traceAux_visited g ann malId fuel cur vis acc hcv]; rfl
    rcases hr : g.rel cur with _ | rels
    · rw [traceAux_relNone g ann malId fuel cur vis acc hcv hr]; rfl
    rcases hf : rels.find? isParentRel with _ | pr
    · rw [traceAux_findNone g ann malId fuel cur vis acc rels hcv hr hf]; rfl
    rcases he : pr.entry.head? with _ | pe
    · rw [traceAux_entryNone g ann malId fuel cur vis acc rels pr hcv hr hf he]; rfl
    by_cases hk : pe.mal_id ∈ ann.byRootMalId
    · rw [traceAux_knownRoot g ann malId fuel cur vis acc rels pr pe hcv hr hf he hk]; rfl
    rcases hd : g.det pe.mal_id with _ | d
    · rw [traceAux_detNone g ann malId fuel cur vis acc rels pr pe hcv hr hf he hk hd]; rfl
    cases htv : isTVMulti d
    · rw [traceAux_stop g ann malId fuel cur vis acc rels pr pe d hcv hr hf he hk hd htv]; rfl
    · rw [traceAux_continue g ann malId fuel cur vis acc rels pr pe d hcv hr hf he hk hd htv]
      have hpe : pe.mal_id ∈ g.ids := by
        by_contra hmem
        rw [hdom _ hmem] at hd
        exact Option.noConfusion hd
      refine ih pe.mal_id (cur :: vis) _ (List.mem_cons_of_mem _ hpe) ?_ ?_ ?_
      · intro v hv
        rcases List.mem_cons.1 hv with h | h
        · exact h ▸ hcur
        · exact hvis v h
      · exact List.nodup_cons.2 ⟨hcv, hnd⟩
      · simp only [List.length_cons]
        omega

/-! Step lemmas for the v2 (letterboxd.ts-file) loop body.  `gateVal` is the
value of the movie special case as it appears in the body: `some true` means
"proceed" (non-movie starts and embedded movies), `some false` a standalone
movie, `none` a throw inside the special case. -/

/-- The movie-special-case expression of one v2 iteration. -/
def gateVal (g : Graph) (malId : Nat) (isOriginalMovie : Bool) (cur : Nat)
    (rels : List Relation) : Option Bool :=
  if isOriginalMovie && cur == malId then movieGate g rels else some true

theorem traceAux2_visited (g : Graph) (ann : Announced) (malId : Nat)
    (mov : Bool) (fuel cur : Nat) (vis acc : List Nat) (h : cur ∈ vis) :
    traceAux2 g ann malId mov (fuel + 1) cur vis acc =
      some ⟨cur, acc.reverse, vis⟩ := by
  simp [traceAux2, h]

theorem traceAux2_relNone (g : Graph) (ann : Announced) (malId : Nat)
    (mov : Bool) (fuel cur : Nat) (vis acc : List Nat) (h : cur ∉ vis)
    (hr : g.rel cur = none) :
    traceAux2 g ann malId mov (fuel + 1) cur vis acc =
      some ⟨cur, acc.reverse, cur :: vis⟩ := by
  simp [traceAux2, h, hr]

theorem traceAux2_gateStop (g : Graph) (ann : Announced) (malId : Nat)
    (mov : Bool) (fuel cur : Nat) (vis acc : List Nat) (rels : List Relation)
    (h : cur ∉ vis) (hr : g.rel cur = some rels)
    (hg : gateVal g malId mov cur rels ≠ some true) :
    traceAux2 g ann malId mov (fuel + 1) cur vis acc =
      some ⟨cur, acc.reverse, cur :: vis⟩ := by
  rcases hgv : gateVal g malId mov cur rels with _ | b
  · rw [gateVal] at hgv
    simp only [Bool.and_eq_true, beq_iff_eq] at hgv
    simp [traceAux2, h, hr, hgv]
  · cases b
    · rw [gateVal] at hgv
      simp only [Bool.and_eq_true, beq_iff_eq] at hgv
      simp [traceAux2, h, hr, hgv]
    · exact absurd hgv hg

theorem traceAux2_findNone (g : Graph) (ann : Announced) (malId : Nat)
    (mov : Bool) (fuel cur : Nat) (vis acc : List Nat) (rels : List Relation)
    (h : cur ∉ vis) (hr : g.rel cur = some rels)
    (hg : gateVal g malId mov cur rels = some true)
    (hf : rels.find? (isParentRel2 mov) = none) :
    traceAux2 g ann malId mov (fuel + 1) cur vis acc =
      some ⟨cur, acc.reverse, cur :: vis⟩ := by
  rw [gateVal] at hg
  simp only [Bool.and_eq_true, beq_iff_eq] at hg
  simp [traceAux2, h, hr, hg, hf]

theorem traceAux2_entryNone (g : Graph) (ann : Announced) (malId : Nat)
    (mov : Bool) (fuel cur : Nat) (vis acc : List Nat) (rels : List Relation)
    (pr : Relation) (h : cur ∉ vis) (hr : g.rel cur = some rels)
    (hg : gateVal g malId mov cur rels = some true)
    (hf : rels.find? (isParentRel2 mov) = some pr) (he : pr.entry.head? = none) :
    traceAux2 g ann malId mov (fuel + 1) cur vis acc =
      some ⟨cur, acc.reverse, cur :: vis⟩ := by
  rw [gateVal] at hg
  simp only [Bool.and_eq_true, beq_iff_eq] at hg
  simp [traceAux2, h, hr, hg, hf, he]

theorem traceAux2_knownRoot (g : Graph) (ann : Announced) (malId : Nat)
    (mov : Bool) (fuel cur : Nat) (vis acc : List Nat) (rels : List Relation)
    (pr : Relation) (pe : RelationEntry) (h : cur ∉ vis)
    (hr : g.rel cur = some rels) (hg : gateVal g malId mov cur rels = some true)
    (hf : rels.find? (isParentRel2 mov) = some pr) (he : pr.entry.head? = some pe)
    (hk : pe.mal_id ∈ ann.byRootMalId) :
    traceAux2 g ann malId mov (fuel + 1) cur vis acc =
      some ⟨pe.mal_id, acc.reverse, cur :: vis⟩ := by
  rw [gateVal] at hg
  simp only [Bool.and_eq_true, beq_iff_eq] at hg
  simp [traceAux2, h, hr, hg, hf, he, hk]

theorem traceAux2_detNone (g : Graph) (ann : Announced) (malId : Nat)
    (mov : Bool) (fuel cur : Nat) (vis acc : List Nat) (rels : List Relation)
    (pr : Relation) (pe : RelationEntry) (h : cur ∉ vis)
    (hr : g.rel cur = some rels) (hg : gateVal g malId mov cur rels = some true)
    (hf : rels.find? (isParentRel2 mov) = some pr) (he : pr.entry.head? = some pe)
    (hk : pe.mal_id ∉ ann.byRootMalId) (hd : g.det pe.mal_id = none) :
    traceAux2 g ann malId mov (fuel + 1) cur vis acc =
      some ⟨cur, (if cur ≠ malId then cur :: acc else acc).reverse, cur :: vis⟩ := by
  rw [gateVal] at hg
  simp only [Bool.and_eq_true, beq_iff_eq] at hg
  simp [traceAux2, h, hr, hg, hf, he, hk, hd]

theorem traceAux2_continue (g : Graph) (ann : Announced) (malId : Nat)
    (mov : Bool) (fuel cur : Nat) (vis acc : List Nat) (rels : List Relation)
    (pr : Relation) (pe : RelationEntry) (d : AnimeData) (h : cur ∉ vis)
    (hr : g.rel cur = some rels) (hg : gateVal g malId mov cur rels = some true)
    (hf : rels.find? (isParentRel2 mov) = some pr) (he : pr.entry.head? = some pe)
    (hk : pe.mal_id ∉ ann.byRootMalId) (hd : g.det pe.mal_id = some d)
    (htv : isTVMulti d = true) :
    traceAux2 g ann malId mov (fuel + 1) cur vis acc =
      traceAux2 g ann malId mov fuel pe.mal_id (cur :: vis)
        (if cur ≠ malId then cur :: acc else acc) := by
  rw [gateVal] at hg
  simp only [Bool.and_eq_true, beq_iff_eq] at hg
  simp [traceAux2, h, hr, hg, hf, he, hk, hd, htv]

theorem traceAux2_stop (g : Graph) (ann : Announced) (malId : Nat)
    (mov : Bool) (fuel cur : Nat) (vis acc : List Nat) (rels : List Relation)
    (pr : Relation) (pe : RelationEntry) (d : AnimeData) (h : cur ∉ vis)
    (hr : g.rel cur = some rels) (hg : gateVal g malId mov cur rels = some true)
    (hf : rels.find? (isParentRel2 mov) = some pr) (he : pr.entry.head? = some pe)
    (hk : pe.mal_id ∉ ann.byRootMalId) (hd : g.det pe.mal_id = some d)
    (htv : isTVMulti d = false) :
    traceAux2 g ann malId mov (fuel + 1) cur vis acc =
      some ⟨cur, (if cur ≠ malId then cur :: acc else acc).reverse, cur :: vis⟩ := by
  rw [gateVal] at hg
  simp only [Bool.and_eq_true, beq_iff_eq] at hg
  simp [traceAux2, h, hr, hg, hf, he, hk, hd, htv]

/-- Termination of the v2 walk, with the same fuel bound as v1. -/
theorem traceAux2_isSome (g : Graph) (ann : Announced) (malId : Nat) (mov : Bool)
    (hdom : ∀ i, i ∉ g.ids → g.det i = none) :
    ∀ fuel cur vis acc, cur ∈ malId :: g.ids →
      (∀ v ∈ vis, v ∈ malId :: g.ids) → vis.Nodup →
      g.ids.length + 2 ≤ fuel + vis.length →
      (traceAux2 g ann malId mov fuel cur vis acc).isSome := by
  intro fuel
  induction fuel with
  | zero =>
    intro cur vis acc _ hvis hnd hfuel
    exfalso
    have h1 : vis.toFinset.card = vis.length := List.toFinset_card_of_nodup hnd
    have h2 : vis.toFinset ⊆ (malId :: g.ids).toFinset := by
      intro x hx
      exact List.mem_toFinset.2 (hvis x (List.mem_toFinset.1 hx))
    have h3 := Finset.card_le_card h2
    have h4 := (malId :: g.ids).toFinset_card_le
    simp [List.length_cons] at h3 h4 hfuel
    omega
  | succ fuel ih =>
    intro cur vis acc hcur hvis hnd hfuel
    by_cases hcv : cur ∈ vis
    · rw [traceAux2_visited g ann malId mov fuel cur vis acc hcv]; rfl
    rcases hr : g.rel cur with _ | rels
    · rw [traceAux2_relNone g ann malId mov fuel cur vis acc hcv hr]; rfl
    by_cases hg : gateVal g malId mov cur rels = some true
    case neg =>
      rw [traceAux2_gateStop g ann malId mov fuel cur vis acc rels hcv hr hg]; rfl
    rcases hf : rels.find? (isParentRel2 mov) with _ | pr
    · rw [traceAux2_findNone g ann malId mov fuel cur vis acc rels hcv hr hg hf]; rfl
    rcases he : pr.entry.head? with _ | pe
    · rw [traceAux2_entryNone g ann malId mov fuel cur vis acc rels pr hcv hr hg hf he]; rfl
    by_cases hk : pe.mal_id ∈ ann.byRootMalId
    · rw [traceAux2_knownRoot g ann malId mov fuel cur vis acc rels pr pe hcv hr hg hf he hk]; rfl
    rcases hd : g.det pe.mal_id with _ | d
    · rw [traceAux2_detNone g ann malId mov fuel cur vis acc rels pr pe hcv hr hg hf he hk hd]; rfl
    cases htv : isTVMulti d
    · rw [traceAux2_stop g ann malId mov fuel cur vis acc rels pr pe d hcv hr hg hf he hk hd htv]; rfl
    · rw [traceAux2_continue g ann malId mov fuel cur vis acc rels pr pe d hcv hr hg hf he hk hd htv]
      have hpe : pe.mal_id ∈ g.ids := by
        by_contra hmem
        rw [hdom _ hmem] at hd
        exact Option.noConfusion hd
      refine ih pe.mal_id (cur :: vis) _ (List.mem_cons_of_mem _ hpe) ?_ ?_ ?_
      · intro v hv
        rcases List.mem_cons.1 hv with h | h
        · exact h ▸ hcur
        · exact hvis v h
      · exact List.nodup_cons.2 ⟨hcv, hnd⟩
      · simp only [List.length_cons]
        omega

/-! Concrete relation graphs used by witnesses and counterexamples. -/

/-- A start node whose relation list presents `Prequel` (to 2) before
`Parent Story` (to 3); nodes 2 and 3 are multi-episode TV entries without
further relations. -/
def gPrequelFirst : Graph where
  ids := [1, 2, 3]
  rel := fun i =>
    if i = 1 then some [⟨"Prequel", [⟨2, "TV"⟩]⟩, ⟨"Parent Story", [⟨3, "TV"⟩]⟩]
    else if i = 2 then some []
    else if i = 3 then some []
    else none
  det := fun i => if i = 2 ∨ i = 3 then some ⟨"TV", some 10⟩ else none

/-- Chain 1 → 2 where 2 (TV, 12 eps) has a `Parent Story` pointing at the
movie 3: node 2 is recorded as an intermediary and then returned as root. -/
def gInterRoot : Graph where
  ids := [1, 2, 3]
  rel := fun i =>
    if i = 1 then some [⟨"Prequel", [⟨2, "TV"⟩]⟩]
    else if i = 2 then some [⟨"Parent Story", [⟨3, "Movie"⟩]⟩]
    else none
  det := fun i =>
    if i = 2 then some ⟨"TV", some 12⟩
    else if i = 3 then some ⟨"Movie", some 1⟩
    else none

/-- The spec's second concrete scenario: 30 (TV, 1 episode) with
`Prequel` → 25 (TV, 13 episodes, no relations of its own). -/
def gScenario30 : Graph where
  ids := [30, 25]
  rel := fun i =>
    if i = 30 then some [⟨"Prequel", [⟨25, "TV"⟩]⟩]
    else if i = 25 then some []
    else none
  det := fun i => if i = 25 then some ⟨"TV", some 13⟩ else none

/-- The spec's first concrete scenario: movie 10 with `Parent Story` → 20
(TV, 24 episodes, no relations of its own). -/
def gScenario10 : Graph where
  ids := [10, 20]
  rel := fun i =>
    if i = 10 then some [⟨"Parent Story", [⟨20, "TV"⟩]⟩]
    else if i = 20 then some []
    else none
  det := fun i => if i = 20 then some ⟨"TV", some 24⟩ else none

/-- A cycle 2 → 3 → 2 reachable from the start node 1. -/
def gCycle : Graph where
  ids := [1, 2, 3]
  rel := fun i =>
    if i = 1 then some [⟨"Prequel", [⟨2, "TV"⟩]⟩]
    else if i = 2 then some [⟨"Prequel", [⟨3, "TV"⟩]⟩]
    else if i = 3 then some [⟨"Prequel", [⟨2, "TV"⟩]⟩]
    else none
  det := fun i => if i = 2 ∨ i = 3 then some ⟨"TV", some 10⟩ else none

/-- A node 7 whose only relation is `Parent Story` → 500, while every request
about 500 itself throws: only the known-root short-circuit can return 500. -/
def gParent500 : Graph where
  ids := [7]
  rel := fun i => if i = 7 then some [⟨"Parent Story", [⟨500, "TV"⟩]⟩] else none
  det := fun _ => none

/-- A standalone movie 5 with an empty relations list. -/
def gLoneMovie : Graph where
  ids := [5]
  rel := fun i => if i = 5 then some [] else none
  det := fun _ => none

/-- A graph on which every request throws. -/
def gAllFail : Graph where
  ids := []
  rel := fun _ => none
  det := fun _ => none

/-- `List.find?` returns the first element of the list satisfying the
predicate: if everything left of `r` fails the predicate and `r` satisfies
it, `r` is found. -/
theorem find?_first {α : Type} (p : α → Bool) (lft : List α) (r : α)
    (rgt : List α) (hr : p r = true) (h₁ : ∀ x ∈ lft, p x = false) :
    (lft ++ r :: rgt).find? p = some r := by
  induction lft with
  | nil => simpa using List.find?_cons_of_pos rgt hr
  | cons a l ih =>
    have ha : p a = false := h₁ a (List.mem_cons_self a l)
    rw [List.cons_append, List.find?_cons_of_neg _ (by simp [ha])]
    exact ih fun x hx => h₁ x (List.mem_cons_of_mem a hx)

/-- Invariant of the v1 walk: every id handed to `onIntermediaryFound` is in
the visited set of the result and differs from the original starting id. -/
theorem traceAux_inter_invariant (g : Graph) (ann : Announced) (malId : Nat) :
    ∀ fuel cur vis acc r, traceAux g ann malId fuel cur vis acc = some r →
      (∀ i ∈ acc, i ∈ vis ∧ i ≠ malId) →
      ∀ i ∈ r.inter, i ∈ r.visited ∧ i ≠ malId := by
  intro fuel
  induction fuel with
  | zero =>
    intro cur vis acc r hres _
    exact absurd hres (by simp [traceAux])
  | succ fuel ih =>
    intro cur vis acc r hres hacc
    have haccv : ∀ i ∈ acc, i ∈ cur :: vis ∧ i ≠ malId := fun i hi =>
      ⟨List.mem_cons_of_mem _ (hacc i hi).1, (hacc i hi).2⟩
    have hacc1 : ∀ i ∈ (if cur ≠ malId then cur :: acc else acc),
        i ∈ cur :: vis ∧ i ≠ malId := by
      intro i hi
      by_cases hcm : cur ≠ malId
      · rw [if_pos hcm] at hi
        rcases List.mem_cons.1 hi with h | h
        · exact ⟨h ▸ List.mem_cons_self _ _, h ▸ hcm⟩
        · exact haccv i h
      · rw [if_neg hcm] at hi
        exact haccv i hi
    by_cases hcv : cur ∈ vis
    · rw [traceAux_visited g ann malId fuel cur vis acc hcv] at hres
      obtain rfl := Option.some.inj hres
      intro i hi
      exact hacc i (List.mem_reverse.1 hi)
    rcases hr : g.rel cur with _ | rels
    · rw [traceAux_relNone g ann malId fuel cur vis acc hcv hr] at hres
      obtain rfl := Option.some.inj hres
      intro i hi
      exact haccv i (List.mem_reverse.1 hi)
    rcases hf : rels.find? isParentRel with _ | pr
    · rw [traceAux_findNone g ann malId fuel cur vis acc rels hcv hr hf] at hres
      obtain rfl := Option.some.inj hres
      intro i hi
      exact haccv i (List.mem_reverse.1 hi)
    rcases he : pr.entry.head? with _ | pe
    · rw [traceAux_entryNone g ann malId fuel cur vis acc rels pr hcv hr hf he] at hres
      obtain rfl := Option.some.inj hres
      intro i hi
      exact haccv i (List.mem_reverse.1 hi)
    by_cases hk : pe.mal_id ∈ ann.byRootMalId
    · rw [traceAux_knownRoot g ann malId fuel cur vis acc rels pr pe hcv hr hf he hk] at hres
      obtain rfl := Option.some.inj hres
      intro i hi
      exact haccv i (List.mem_reverse.1 hi)
    rcases hd : g.det pe.mal_id with _ | d
    · rw [traceAux_detNone g ann malId fuel cur vis acc rels pr pe hcv hr hf he hk hd] at hres
      obtain rfl := Option.some.inj hres
      intro i hi
      exact hacc1 i (List.mem_reverse.1 hi)
    cases htv : isTVMulti d
    · rw [traceAux_stop g ann malId fuel cur vis acc rels pr pe d hcv hr hf he hk hd htv] at hres
      obtain rfl := Option.some.inj hres
      intro i hi
      exact hacc1 i (List.mem_reverse.1 hi)
    · rw [traceAux_continue g ann malId fuel cur vis acc rels pr pe d hcv hr hf he hk hd htv] at hres
      exact ih pe.mal_id (cur :: vis) _ r hres hacc1

/-! Model of the ledger-facing part of the two watchlist adapters.  The
output callback is represented by the list of emitted entries (the sink
appends exactly one ledger line per callback invocation); the intermediary
stub lines appended directly by the MAL adapter are returned as a second
list. -/

/-- A resolved media entry (adapters/types.ts `MediaEntry`). -/
structure MediaEntry where
  tmdb : Option String
  tvdb : Option String
  title : String
  year : Nat
  type : String
  source : String
  username : String
  anime : Bool
  malId : Option Nat
  rootMalId : Option Nat
  imageUrl : Option String
  episodes : Option Nat
  letterboxdSlug : Option String
deriving DecidableEq, Repr

/-- `Set.add` on the list-modelled sets. -/
def insertNat (n : Nat) (l : List Nat) : List Nat := if n ∈ l then l else n :: l

/-- `Set.add` on the list-modelled string sets. -/
def insertStr (s : String) (l : List String) : List String :=
  if s ∈ l then l else s :: l

/-- index.ts `getEntryKey`. -/
def getEntryKey (e : MediaEntry) : String :=
  match e.tmdb with
  | some t => "tmdb:" ++ t
  | none =>
    match e.tvdb with
    | some v => "tvdb:" ++ v
    | none => e.title ++ ":" ++ toString e.year ++ ":" ++ e.source ++ ":" ++ e.username

/-- JS truthiness of an optional number: `0` and `undefined` are falsy. -/
def jsSomePos : Option Nat → Option Nat
  | some (n + 1) => some (n + 1)
  | _ => none

/-- index.ts `processEntry`: effect of the output callback on the announced
sets (the appended ledger line itself is represented by the emitted entry). -/
def processEntry (e : MediaEntry) (ann : Announced) : Announced :=
  { byKey := insertStr (getEntryKey e) ann.byKey
    byMalId := match jsSomePos e.malId with
      | some m => insertNat m ann.byMalId
      | none => ann.byMalId
    byRootMalId := match jsSomePos e.rootMalId with
      | some m => insertNat m ann.byRootMalId
      | none => ann.byRootMalId }

/-- id-lookup.ts `IdLookupResult`. -/
structure IdLookupResult where
  tmdb : Option String
  tvdb : Option String
  isAnime : Option Bool
deriving DecidableEq, Repr

/-- One image-format block of a Jikan `images` object. -/
structure ImageSet where
  image_url : Option String
  large_image_url : Option String
deriving DecidableEq, Repr

/-- The Jikan `images` object. -/
structure Images where
  jpg : Option ImageSet
  webp : Option ImageSet
deriving DecidableEq, Repr

/-- The fields of a parsed `JikanAnimeSchema` value used by the MAL adapter;
`airedFrom` is `aired?.from`. -/
structure JikanAnime where
  title : String
  title_english : Option String
  type : String
  episodes : Option Nat
  airedFrom : Option String
  images : Option Images
deriving DecidableEq, Repr

/-- JS `a || b` on optional strings (the empty string is falsy). -/
def jsOrStr (a b : Option String) : Option String :=
  match a with
  | some s => if s == "" then b else some s
  | none => b

/-- The image-URL fallback chain
`images?.jpg?.large_image_url || images?.jpg?.image_url ||
images?.webp?.large_image_url || images?.webp?.image_url || undefined`. -/
def pickImage (im : Option Images) : Option String :=
  match im with
  | none => none
  | some i =>
    jsOrStr (i.jpg.bind fun s => s.large_image_url)
      (jsOrStr (i.jpg.bind fun s => s.image_url)
        (jsOrStr (i.webp.bind fun s => s.large_image_url)
          (i.webp.bind fun s => s.image_url)))

/-- Two ASCII digits. -/
def isTwoDigits (s : String) : Bool :=
  s.length == 2 && s.toList.all Char.isDigit

/-- The `anime_start_date_string` fallback: match
`^(\d2)-(\d2)-(\d2)$` (two digits per group), take the third group as a
two-digit year and map it to 20xx below 50, 19xx otherwise. -/
def parseStartDateYear (s : String) : Option Nat :=
  match s.splitOn "-" with
  | [a, b, c] =>
    if isTwoDigits a && isTwoDigits b && isTwoDigits c then
      match c.toNat? with
      | some y => some (if y < 50 then 2000 + y else 1900 + y)
      | none => none
    else none
  | _ => none

/-- JS `!year` for an optional number: `undefined` and `0` are falsy. -/
def jsFalsyNat : Option Nat → Bool
  | none => true
  | some 0 => true
  | some (_ + 1) => false

/-- One row of the `load.json` watchlist listing (the fields the adapter
reads). -/
structure MalItem where
  status : Nat
  anime_id : Nat
  anime_start_date_string : Option String
deriving DecidableEq, Repr

/-- The upstream world of the MAL adapter: the relation graph for the tracer,
the full `/anime/{id}` detail endpoint (`none` = fetch or zod parse throws),
`new Date(s).getFullYear()` (`none` = invalid date), and
`idLookup.getIdsFromMal`. -/
structure MalWorld where
  g : Graph
  full : Nat → Option JikanAnime
  dateYear : String → Option Nat
  lookup : Nat → Option IdLookupResult

/-- The year-resolution logic of the MAL adapter: year from `aired.from` via
`Date`, falling back to the `anime_start_date_string` regex when the former
is falsy and the string is truthy. -/
def resolveYear (w : MalWorld) (rootAnime : JikanAnime) (item : MalItem) :
    Option Nat :=
  let y0 := rootAnime.airedFrom.bind w.dateYear
  if jsFalsyNat y0 then
    match item.anime_start_date_string with
    | some s =>
      if s == "" then y0
      else
        match parseStartDateYear s with
        | some y => some y
        | none => y0
    | none => y0
  else y0

/-- `rootAnime.title_english || rootAnime.title`. -/
def resolveTitle (a : JikanAnime) : String :=
  match a.title_english with
  | some s => if s == "" then a.title else s
  | none => a.title

/-- Construction of the emitted MAL entry (ids from the lookup table, media
type from the root anime's type, episodes only for TV). -/
def buildMalEntry (w : MalWorld) (username : String) (animeId rootMalId : Nat)
    (rootAnime : JikanAnime) (year : Nat) : MediaEntry :=
  let ids := w.lookup rootMalId
  let mediaType := if rootAnime.type == "Movie" then "movie" else "tv"
  { tmdb := ids.bind fun x => x.tmdb
    tvdb := ids.bind fun x => x.tvdb
    title := resolveTitle rootAnime
    year := year
    type := mediaType
    source := "myanimelist"
    username := username
    anime := true
    malId := some animeId
    rootMalId := if rootMalId ≠ animeId then some rootMalId else none
    imageUrl := pickImage rootAnime.images
    episodes := if mediaType == "tv" then jsSomePos rootAnime.episodes else none
    letterboxdSlug := none }

/-- The non-emitting stub line written for an intermediary. -/
def stubEntry (username : String) (interId rootMalId : Nat) : MediaEntry :=
  { tmdb := none
    tvdb := none
    title := "[Intermediary: MAL " ++ toString interId ++ "]"
    year := 1900
    type := "tv"
    source := "myanimelist"
    username := username
    anime := true
    malId := some interId
    rootMalId := some rootMalId
    imageUrl := none
    episodes := none
    letterboxdSlug := none }

/-- The post-emission intermediary loop: mark each not-yet-known intermediary
in `byMalId` and append its stub line. -/
def addStubs (username : String) (rootMalId : Nat) (inter : List Nat)
    (ann : Announced) : Announced × List MediaEntry :=
  inter.foldl
    (fun p interId =>
      if interId ∈ p.1.byMalId then p
      else ({ p.1 with byMalId := interId :: p.1.byMalId },
            p.2 ++ [stubEntry username interId rootMalId]))
    (ann, [])

/-- Year check, entry construction, callback and stub loop of one MAL item
(the tail of the per-item `try` block). -/
def emitMalEntry (w : MalWorld) (username : String) (ann : Announced)
    (animeId rootMalId : Nat) (rootAnime : JikanAnime) (inter : List Nat)
    (item : MalItem) : Announced × List MediaEntry × List MediaEntry :=
  match resolveYear w rootAnime item with
  | some (n + 1) =>
    let entry := buildMalEntry w username animeId rootMalId rootAnime (n + 1)
    let ann1 := processEntry entry ann
    let p := addStubs username rootMalId inter ann1
    (p.1, [entry], p.2)
  | _ => (ann, [], [])

/-- Processing of one row of the MAL watchlist (the loop body of
`scrapeMyAnimeListWatchlist`): returns the updated announced sets, the
entries handed to the output callback, and the stub lines appended for
intermediaries. -/
def processMalEntry (w : MalWorld) (username : String) (ann : Announced)
    (item : MalItem) : Announced × List MediaEntry × List MediaEntry :=
  if item.status ≠ 6 then (ann, [], [])
  else if item.anime_id ∈ ann.byMalId then (ann, [], [])
  else
    match w.full item.anime_id with
    | none => (ann, [], [])
    | some anime =>
      if anime.type == "Movie" then
        if item.anime_id ∈ ann.byRootMalId then
          ({ ann with byMalId := insertNat item.anime_id ann.byMalId }, [], [])
        else emitMalEntry w username ann item.anime_id item.anime_id anime [] item
      else
        let res := traceToRootSeries w.g ann item.anime_id
        if res.1 ∈ ann.byRootMalId then
          let marked := res.2.foldl (fun s i => insertNat i s)
            (insertNat item.anime_id ann.byMalId)
          ({ ann with byMalId := marked }, [], [])
        else if res.1 ≠ item.anime_id then
          match w.full res.1 with
          | none => (ann, [], [])
          | some rootAnime =>
            emitMalEntry w username ann item.anime_id res.1 rootAnime res.2 item
        else emitMalEntry w username ann item.anime_id item.anime_id anime res.2 item

/-- One Letterboxd grid item after attribute extraction: slug, optional film
id, and the parsed title and year. -/
structure LbItem where
  slug : String
  filmId : Option String
  title : String
  year : Nat
deriving DecidableEq, Repr

/-- The data the adapter reads off a fetched film page: the id extracted from
the first TMDB movie link, and the presence of MAL / AniDB links. -/
structure FilmPage where
  tmdbMovieId : Option String
  hasMalLink : Bool
  hasAnidbLink : Bool
deriving DecidableEq, Repr

/-- The upstream world of the Letterboxd adapter:
`idLookup.getIdsFromLetterboxd`, the poster endpoint (outer `none` = fetch
throws, inner option = the `url` field), and the film page (`none` = fetch
throws). -/
structure LbWorld where
  lookup : String → Option IdLookupResult
  poster : String → Option (Option String)
  page : String → Option FilmPage

/-- The slug-based dedup key `letterboxd:slug:year`. -/
def lbSlugKey (item : LbItem) : String :=
  "letterboxd:" ++ item.slug ++ ":" ++ toString item.year

/-- Id and anime-flag resolution: lookup table first, then the film-page
fallback when the tmdb id is missing or the anime flag is still false. -/
def lbResolvedIds (w : LbWorld) (item : LbItem) :
    Option String × Option String × Bool :=
  let base := match w.lookup item.slug with
    | some ids => (ids.tmdb, ids.tvdb, ids.isAnime.getD false)
    | none => (none, none, false)
  if base.1.isNone || !base.2.2 then
    match w.page item.slug with
    | none => base
    | some p =>
      ((if base.1.isNone then p.tmdbMovieId else base.1), base.2.1,
        (if !base.2.2 then p.hasMalLink || p.hasAnidbLink else base.2.2))
  else base

/-- Poster URL: the poster endpoint's `url` field when truthy, otherwise the
URL constructed from the film id (digits joined by slashes) and the slug. -/
def lbPosterUrl (w : LbWorld) (item : LbItem) : Option String :=
  let fromEndpoint := match w.poster item.slug with
    | some (some u) => if u == "" then none else some u
    | _ => none
  match fromEndpoint with
  | some u => some u
  | none =>
    match item.filmId with
    | some fid =>
      if fid == "" then none
      else some ("https://a.ltrbxd.com/resized/film-poster/"
        ++ String.intercalate "/" (fid.toList.map fun c => c.toString)
        ++ "/" ++ fid ++ "-" ++ item.slug ++ "-0-250-0-375-crop.jpg")
    | none => none

/-- The final composite key, computed only after all ids are known. -/
def lbEntryKey (tmdb tvdb : Option String) (title : String) (year : Nat)
    (username : String) : String :=
  match tmdb with
  | some t => "tmdb:" ++ t
  | none =>
    match tvdb with
    | some v => "tvdb:" ++ v
    | none => title.trim ++ ":" ++ toString year ++ ":letterboxd:" ++ username

/-- Construction of the emitted Letterboxd entry. -/
def buildLbEntry (w : LbWorld) (username : String) (item : LbItem) : MediaEntry :=
  let ids := lbResolvedIds w item
  { tmdb := ids.1
    tvdb := ids.2.1
    title := item.title.trim
    year := item.year
    type := "movie"
    source := "letterboxd"
    username := username
    anime := ids.2.2
    malId := none
    rootMalId := none
    imageUrl := lbPosterUrl w item
    episodes := none
    letterboxdSlug := some item.slug }

/-- Processing of one Letterboxd grid item (the per-film part of
`scrapeLetterboxdWatchlist`): returns the updated announced sets and the
entries handed to the output callback. -/
def processLetterboxdItem (w : LbWorld) (username : String) (ann : Announced)
    (item : LbItem) : Announced × List MediaEntry :=
  if lbSlugKey item ∈ ann.byKey then (ann, [])
  else if lbSlugKey item ∈ ann.byKey then (ann, [])
  else
    let entry := buildLbEntry w username item
    let ids := lbResolvedIds w item
    let entryKey := lbEntryKey ids.1 ids.2.1 item.title item.year username
    if entryKey ∈ ann.byKey then
      ({ ann with byKey := insertStr (lbSlugKey item) ann.byKey }, [])
    else
      let ann1 := processEntry entry ann
      ({ ann1 with byKey :=
          insertStr (lbSlugKey item) (insertStr entryKey ann1.byKey) }, [entry])

/-- letterboxd.ts `LETTERBOXD_MIN_DELAY` (ms). -/
def LETTERBOXD_MIN_DELAY : Nat := 200

/-- myanimelist.ts `JIKAN_MIN_DELAY` (ms). -/
def JIKAN_MIN_DELAY : Nat := 350

/-- Dispatch timestamp of one rate-limited call: `last` is the stored
last-request timestamp, `now` the time the call is issued, and `eps ≥ 0` any
extra delay of the timer beyond the requested wait (`0` for an ideal
`setTimeout`).  The stored timestamp is then updated to this value before the
request is sent. -/
def rateLimitDispatch (minDelay last now eps : Nat) : Nat :=
  if now - last < minDelay then now + (minDelay - (now - last)) + eps else now

/-- A MAL world on which every request fails and every lookup misses. -/
def wMalTrivial : MalWorld :=
  ⟨gAllFail, fun _ => none, fun _ => none, fun _ => none⟩

/-- A Letterboxd world on which every request fails and every lookup
misses. -/
def wLbTrivial : LbWorld := ⟨fun _ => none, fun _ => none, fun _ => none⟩

/-! Claim theorems. -/

/-- C1: the tracer terminates on every relation graph whose detail endpoint
answers only finitely many ids (fuel `|ids| + 2` is never exhausted, in both
source versions of `traceToRootSeries`); a step whose current id is already
in the visited set returns that id as root immediately; and on the concrete
cyclic graph `gCycle` (cycle 2 → 3 → 2 reached from 1) the returned root 2
lies on the cycle. -/
theorem tracer_terminates_and_breaks_cycles :
    (∀ g ann malId, (∀ i, i ∉ g.ids → g.det i = none) →
      (traceAux g ann malId (g.ids.length + 2) malId [] []).isSome) ∧
    (∀ g ann malId mov, (∀ i, i ∉ g.ids → g.det i = none) →
      (traceAux2 g ann malId mov (g.ids.length + 2) malId [] []).isSome) ∧
    (∀ g ann malId fuel cur vis acc, cur ∈ vis →
      traceAux g ann malId (fuel + 1) cur vis acc = some ⟨cur, acc.reverse, vis⟩) ∧
    (∀ g ann malId mov fuel cur vis acc, cur ∈ vis →
      traceAux2 g ann malId mov (fuel + 1) cur vis acc = some ⟨cur, acc.reverse, vis⟩) ∧
    traceToRootSeries gCycle Announced.empty 1 = (2, [2, 3]) := by
  refine ⟨?_, ?_, ?_, ?_, by decide⟩
  · intro g ann malId hdom
    exact traceAux_isSome g ann malId hdom _ malId [] []
      (List.mem_cons_self _ _) (by simp) List.nodup_nil (by simp)
  · intro g ann malId mov hdom
    exact traceAux2_isSome g ann malId mov hdom _ malId [] []
      (List.mem_cons_self _ _) (by simp) List.nodup_nil (by simp)
  · intro g ann malId fuel cur vis acc h
    exact traceAux_visited g ann malId fuel cur vis acc h
  · intro g ann malId mov fuel cur vis acc h
    exact traceAux2_visited g ann malId mov fuel cur vis acc h

/-- C1 witness: termination instantiated on the cyclic graph `gCycle`. -/
theorem tracer_terminates_witness :
    (traceAux gCycle Announced.empty 1 (gCycle.ids.length + 2) 1 [] []).isSome := by
  apply tracer_terminates_and_breaks_cycles.1 gCycle Announced.empty 1
  intro i hi
  simp only [gCycle, List.mem_cons, List.not_mem_nil] at hi ⊢
  rw [if_neg]
  intro h
  rcases h with h | h <;> subst h <;> simp at hi

/-- C2: the movie special case of the letterboxd.ts-file tracer.  Unless the
gate reports an embedded movie (`some true`), a "Movie"-typed start is
returned as its own root with zero intermediaries; a movie with no
`Parent Story`, `Sequel` or `Prequel` relation fails the gate, hence is
standalone; and any later arrival back at the starting id returns before the
gate can run again (the test is evaluated only on the starting node). -/
theorem movie_special_case :
    (∀ g ann malId rels, g.rel malId = some rels →
      movieGate g rels ≠ some true →
      traceToRootSeries2 g ann "Movie" malId = (malId, [])) ∧
    (∀ g rels,
      rels.find? (fun r => r.relation == "Parent Story") = none →
      rels.find? (fun r => r.relation == "Sequel") = none →
      rels.find? (fun r => r.relation == "Prequel") = none →
      movieGate g rels = some false) ∧
    (∀ g ann malId rels, g.rel malId = some rels →
      rels.find? (fun r => r.relation == "Parent Story") = none →
      rels.find? (fun r => r.relation == "Sequel") = none →
      rels.find? (fun r => r.relation == "Prequel") = none →
      traceToRootSeries2 g ann "Movie" malId = (malId, [])) ∧
    (∀ g ann malId mov fuel vis acc, malId ∈ vis →
      traceAux2 g ann malId mov (fuel + 1) malId vis acc =
        some ⟨malId, acc.reverse, vis⟩) := by
  have hgate : ∀ g malId rels,
      gateVal g malId true malId rels = movieGate g rels := by
    intro g malId rels
    simp [gateVal]
  have hmain : ∀ g (ann : Announced) malId rels, g.rel malId = some rels →
      movieGate g rels ≠ some true →
      traceToRootSeries2 g ann "Movie" malId = (malId, []) := by
    intro g ann malId rels hr hng
    have h2 : traceAux2 g ann malId true (g.ids.length + 2) malId [] [] =
        some ⟨malId, [], [malId]⟩ :=
      traceAux2_gateStop g ann malId true (g.ids.length + 1) malId [] [] rels
        (by simp) hr (by rw [hgate]; exact hng)
    simp [traceToRootSeries2, h2]
  have hfail : ∀ g rels,
      rels.find? (fun r => r.relation == "Parent Story") = none →
      rels.find? (fun r => r.relation == "Sequel") = none →
      rels.find? (fun r => r.relation == "Prequel") = none →
      movieGate g rels = some false := by
    intro g rels h1 h2 h3
    simp [movieGate, checkTVRel, h1, h2, h3]
  refine ⟨hmain, hfail, ?_, ?_⟩
  · intro g ann malId rels hr h1 h2 h3
    exact hmain g ann malId rels hr (by rw [hfail g rels h1 h2 h3]; simp)
  · intro g ann malId mov fuel vis acc h
    exact traceAux2_visited g ann malId mov fuel malId vis acc h

/-- C2 witness: the standalone movie 5 (empty relation list) is returned as
its own root with no intermediaries. -/
theorem movie_special_case_witness :
    traceToRootSeries2 gLoneMovie Announced.empty "Movie" 5 = (5, []) :=
  movie_special_case.2.2.1 gLoneMovie Announced.empty 5 [] rfl rfl rfl rfl

/-- C3 counterexample: on `gPrequelFirst` the starting node has a
`Parent Story` relation (to 3), yet the walk selects the `Prequel` relation
(to 2) because it comes first in the upstream list, returning root 2 — not
root 3 as the claimed fixed priority `Parent Story > Prequel` would give. -/
theorem priority_order_counterexample :
    gPrequelFirst.rel 1 =
      some [⟨"Prequel", [⟨2, "TV"⟩]⟩, ⟨"Parent Story", [⟨3, "TV"⟩]⟩] ∧
    ([⟨"Prequel", [⟨2, "TV"⟩]⟩, ⟨"Parent Story", [⟨3, "TV"⟩]⟩] :
        List Relation).find? isParentRel = some ⟨"Prequel", [⟨2, "TV"⟩]⟩ ∧
    traceToRootSeries gPrequelFirst Announced.empty 1 = (2, []) ∧
    traceToRootSeries gPrequelFirst Announced.empty 1 ≠ (3, []) := by
  decide

/-- C3 amended: at each non-terminal step the tracer selects the FIRST
relation in the upstream list order whose name is `Parent Story`, `Prequel`
or `Full Story` (no priority among them); if no such relation exists the
current node is returned as the root. -/
theorem relation_selection_list_order :
    ∀ g ann malId fuel cur vis acc rels, cur ∉ vis → g.rel cur = some rels →
      ((rels.find? isParentRel = none →
        traceAux g ann malId (fuel + 1) cur vis acc =
          some ⟨cur, acc.reverse, cur :: vis⟩) ∧
      (∀ lft r rgt, rels = lft ++ r :: rgt → isParentRel r = true →
        (∀ x ∈ lft, isParentRel x = false) →
        ((r.entry.head? = none →
          traceAux g ann malId (fuel + 1) cur vis acc =
            some ⟨cur, acc.reverse, cur :: vis⟩) ∧
        (∀ pe, r.entry.head? = some pe → pe.mal_id ∈ ann.byRootMalId →
          traceAux g ann malId (fuel + 1) cur vis acc =
            some ⟨pe.mal_id, acc.reverse, cur :: vis⟩) ∧
        (∀ pe d, r.entry.head? = some pe → pe.mal_id ∉ ann.byRootMalId →
          g.det pe.mal_id = some d → isTVMulti d = true →
          traceAux g ann malId (fuel + 1) cur vis acc =
            traceAux g ann malId fuel pe.mal_id (cur :: vis)
              (if cur ≠ malId then cur :: acc else acc))))) := by
  intro g ann malId fuel cur vis acc rels hcv hr
  refine ⟨fun hf => traceAux_findNone g ann malId fuel cur vis acc rels hcv hr hf, ?_⟩
  intro lft r rgt hsplit hrp hlft
  have hf : rels.find? isParentRel = some r := by
    rw [hsplit]
    exact find?_first isParentRel lft r rgt hrp hlft
  refine ⟨fun he => traceAux_entryNone g ann malId fuel cur vis acc rels r hcv hr hf he,
    fun pe he hk => traceAux_knownRoot g ann malId fuel cur vis acc rels r pe hcv hr hf he hk,
    fun pe d he hk hd htv =>
      traceAux_continue g ann malId fuel cur vis acc rels r pe d hcv hr hf he hk hd htv⟩

/-- C3 amended witness: on `gPrequelFirst`, the first listed relation
(`Prequel` → 2, listed before `Parent Story` → 3) drives the step. -/
theorem relation_selection_witness :
    traceAux gPrequelFirst Announced.empty 1 4 1 [] [] =
      traceAux gPrequelFirst Announced.empty 1 3 2 [1] [] := by
  have h := (relation_selection_list_order gPrequelFirst Announced.empty 1 3 1 [] []
    [⟨"Prequel", [⟨2, "TV"⟩]⟩, ⟨"Parent Story", [⟨3, "TV"⟩]⟩]
    (by simp) rfl).2 [] ⟨"Prequel", [⟨2, "TV"⟩]⟩ [⟨"Parent Story", [⟨3, "TV"⟩]⟩]
    rfl rfl (by simp)
  exact h.2.2 ⟨2, "TV"⟩ ⟨"TV", some 10⟩ rfl (by simp [Announced.empty]) rfl rfl

/-- C4: whenever the selected parent id is already in the resolved-root index
`announced.byRootMalId`, the step returns that parent id as root immediately,
for every graph (in particular regardless of any data stored at the parent,
so no further request is needed); concretely, with `500` a known root,
tracing any node whose first applicable relation points at 500 yields
`(500, [])`. -/
theorem known_root_short_circuit :
    (∀ g ann malId fuel cur vis acc rels pr pe,
      cur ∉ vis → g.rel cur = some rels → rels.find? isParentRel = some pr →
      pr.entry.head? = some pe → pe.mal_id ∈ ann.byRootMalId →
      traceAux g ann malId (fuel + 1) cur vis acc =
        some ⟨pe.mal_id, acc.reverse, cur :: vis⟩) ∧
    (∀ g ann malId rels pr pe,
      g.rel malId = some rels → rels.find? isParentRel = some pr →
      pr.entry.head? = some pe → pe.mal_id = 500 → 500 ∈ ann.byRootMalId →
      traceToRootSeries g ann malId = (500, [])) := by
  constructor
  · intro g ann malId fuel cur vis acc rels pr pe hcv hr hf he hk
    exact traceAux_knownRoot g ann malId fuel cur vis acc rels pr pe hcv hr hf he hk
  · intro g ann malId rels pr pe hr hf he hpe hk
    have h2 : traceAux g ann malId (g.ids.length + 2) malId [] [] =
        some ⟨500, [], [malId]⟩ := by
      have h := traceAux_knownRoot g ann malId (g.ids.length + 1) malId [] []
        rels pr pe (by simp) hr hf he (hpe ▸ hk)
      rw [hpe] at h
      exact h
    simp [traceToRootSeries, h2]

/-- C4 witness: node 7 whose `Parent Story` points at the known root 500
(every request about 500 itself throws, so the result cannot depend on 500's
own data). -/
theorem known_root_short_circuit_witness :
    traceToRootSeries gParent500 ⟨[], [], [500]⟩ 7 = (500, []) :=
  known_root_short_circuit.2 gParent500 ⟨[], [], [500]⟩ 7
    [⟨"Parent Story", [⟨500, "TV"⟩]⟩] ⟨"Parent Story", [⟨500, "TV"⟩]⟩
    ⟨500, "TV"⟩ rfl rfl rfl rfl (by simp)

/-- C5: after fetching the selected parent's details, the walk continues from
the parent exactly when the parent is TV-typed with more than one episode,
and otherwise returns the current node as root (stated for the v1 loop and
for the v2 loop); and the spec's first concrete scenario holds: movie 10 with
`Parent Story` → 20 (TV, 24 eps, no further relations) yields root 20 with no
intermediaries. -/
theorem walk_continuation_rule :
    (∀ g ann malId fuel cur vis acc rels pr pe d,
      cur ∉ vis → g.rel cur = some rels → rels.find? isParentRel = some pr →
      pr.entry.head? = some pe → pe.mal_id ∉ ann.byRootMalId →
      g.det pe.mal_id = some d →
      ((isTVMulti d = true →
        traceAux g ann malId (fuel + 1) cur vis acc =
          traceAux g ann malId fuel pe.mal_id (cur :: vis)
            (if cur ≠ malId then cur :: acc else acc)) ∧
      (isTVMulti d = false →
        traceAux g ann malId (fuel + 1) cur vis acc =
          some ⟨cur, (if cur ≠ malId then cur :: acc else acc).reverse, cur :: vis⟩))) ∧
    (∀ g ann malId mov fuel cur vis acc rels pr pe d,
      cur ∉ vis → g.rel cur = some rels →
      gateVal g malId mov cur rels = some true →
      rels.find? (isParentRel2 mov) = some pr →
      pr.entry.head? = some pe → pe.mal_id ∉ ann.byRootMalId →
      g.det pe.mal_id = some d →
      ((isTVMulti d = true →
        traceAux2 g ann malId mov (fuel + 1) cur vis acc =
          traceAux2 g ann malId mov fuel pe.mal_id (cur :: vis)
            (if cur ≠ malId then cur :: acc else acc)) ∧
      (isTVMulti d = false →
        traceAux2 g ann malId mov (fuel + 1) cur vis acc =
          some ⟨cur, (if cur ≠ malId then cur :: acc else acc).reverse, cur :: vis⟩))) ∧
    traceToRootSeries2 gScenario10 Announced.empty "Movie" 10 = (20, []) := by
  refine ⟨?_, ?_, by decide⟩
  · intro g ann malId fuel cur vis acc rels pr pe d hcv hr hf he hk hd
    exact ⟨fun htv => traceAux_continue g ann malId fuel cur vis acc rels pr pe d hcv hr hf he hk hd htv,
      fun htv => traceAux_stop g ann malId fuel cur vis acc rels pr pe d hcv hr hf he hk hd htv⟩
  · intro g ann malId mov fuel cur vis acc rels pr pe d hcv hr hg hf he hk hd
    exact ⟨fun htv => traceAux2_continue g ann malId mov fuel cur vis acc rels pr pe d hcv hr hg hf he hk hd htv,
      fun htv => traceAux2_stop g ann malId mov fuel cur vis acc rels pr pe d hcv hr hg hf he hk hd htv⟩

/-- C5 witness: on `gInterRoot` at node 2 (parent 3 is a movie, so not a
multi-episode TV entry), the step returns node 2 as root. -/
theorem walk_continuation_witness :
    traceAux gInterRoot Announced.empty 1 5 2 [1] [] =
      some ⟨2, [2], [2, 1]⟩ :=
  (walk_continuation_rule.1 gInterRoot Announced.empty 1 4 2 [1] []
    [⟨"Parent Story", [⟨3, "Movie"⟩]⟩] ⟨"Parent Story", [⟨3, "Movie"⟩]⟩
    ⟨3, "Movie"⟩ ⟨"Movie", some 1⟩ (by simp) rfl rfl rfl
    (by simp [Announced.empty]) rfl).2 rfl

/-- C6 counterexample: on `gInterRoot` the trace from 1 records node 2 as an
intermediary and then returns 2 itself as the root, so a recorded
intermediary can be the root id returned by the same trace. -/
theorem intermediary_is_root_counterexample :
    traceToRootSeries gInterRoot Announced.empty 1 = (2, [2]) ∧
    (traceToRootSeries gInterRoot Announced.empty 1).1 ∈
      (traceToRootSeries gInterRoot Announced.empty 1).2 := by
  decide

/-- C6 amended: every id recorded via `onIntermediaryFound` is a visited node
distinct from the original starting id (in particular the starting id is
never among the returned intermediaries); the returned root, however, may
itself be one of the recorded intermediaries. -/
theorem intermediary_invariant :
    (∀ g ann malId fuel cur vis acc r,
      traceAux g ann malId fuel cur vis acc = some r →
      (∀ i ∈ acc, i ∈ vis ∧ i ≠ malId) →
      ∀ i ∈ r.inter, i ∈ r.visited ∧ i ≠ malId) ∧
    (∀ g ann malId, malId ∉ (traceToRootSeries g ann malId).2) := by
  constructor
  · exact fun g ann malId fuel cur vis acc r hres hacc =>
      traceAux_inter_invariant g ann malId fuel cur vis acc r hres hacc
  · intro g ann malId
    rcases hres : traceAux g ann malId (g.ids.length + 2) malId [] [] with _ | r
    · simp [traceToRootSeries, hres]
    · simp only [traceToRootSeries, hres]
      intro hmem
      exact (traceAux_inter_invariant g ann malId (g.ids.length + 2) malId [] [] r
        hres (by simp) malId hmem).2 rfl

/-- C6 amended witness: on `gInterRoot` the recorded intermediary 2 is
visited and distinct from the start 1, and 1 is not an intermediary. -/
theorem intermediary_invariant_witness :
    (2 ∈ ([2, 1] : List Nat) ∧ 2 ≠ 1) ∧
    1 ∉ (traceToRootSeries gInterRoot Announced.empty 1).2 := by
  constructor
  · exact intermediary_invariant.1 gInterRoot Announced.empty 1 6 1 [] []
      ⟨2, [2], [2, 1]⟩ (by decide) (by simp) 2 (by decide)
  · exact intermediary_invariant.2 gInterRoot Announced.empty 1

/-- C7 counterexample: on the spec's own scenario graph (30 = TV with 1
episode, `Prequel` → 25 = TV with 13 episodes and no relations) the tracer
returns `(25, [])`, not the claimed `(25, [30])`: the starting id is never
recorded as an intermediary. -/
theorem scenario30_counterexample :
    traceToRootSeries gScenario30 Announced.empty 30 = (25, []) ∧
    ((25 : Nat), ([] : List Nat)) ≠ (25, [30]) := by
  decide

/-- C7 amended: the scenario yields root 25 with an empty intermediary list
(30 is the start node, and the start node is never recorded). -/
theorem scenario30_amended :
    traceToRootSeries gScenario30 Announced.empty 30 = (25, []) := by
  decide

/-- C10: the tracer is a total function of the modelled upstream; a throwing
relations fetch on the very first step returns the starting node as its own
root (both versions), and mid-walk failures of the relations fetch or of the
parent detail fetch return the current node. -/
theorem tracer_total_under_failure :
    (∀ g ann malId, g.rel malId = none →
      traceToRootSeries g ann malId = (malId, [])) ∧
    (∀ g ann ty malId, g.rel malId = none →
      traceToRootSeries2 g ann ty malId = (malId, [])) ∧
    (∀ g ann malId fuel cur vis acc, cur ∉ vis → g.rel cur = none →
      traceAux g ann malId (fuel + 1) cur vis acc =
        some ⟨cur, acc.reverse, cur :: vis⟩) ∧
    (∀ g ann malId fuel cur vis acc rels pr pe,
      cur ∉ vis → g.rel cur = some rels → rels.find? isParentRel = some pr →
      pr.entry.head? = some pe → pe.mal_id ∉ ann.byRootMalId →
      g.det pe.mal_id = none →
      traceAux g ann malId (fuel + 1) cur vis acc =
        some ⟨cur, (if cur ≠ malId then cur :: acc else acc).reverse, cur :: vis⟩) := by
  refine ⟨?_, ?_, ?_, ?_⟩
  · intro g ann malId hrel
    have h2 : traceAux g ann malId (g.ids.length + 2) malId [] [] =
        some ⟨malId, [], [malId]⟩ :=
      traceAux_relNone g ann malId (g.ids.length + 1) malId [] [] (by simp) hrel
    simp [traceToRootSeries, h2]
  · intro g ann ty malId hrel
    have h2 : traceAux2 g ann malId (ty == "Movie") (g.ids.length + 2) malId [] [] =
        some ⟨malId, [], [malId]⟩ :=
      traceAux2_relNone g ann malId (ty == "Movie") (g.ids.length + 1) malId [] []
        (by simp) hrel
    simp [traceToRootSeries2, h2]
  · intro g ann malId fuel cur vis acc hcv hrel
    exact traceAux_relNone g ann malId fuel cur vis acc hcv hrel
  · intro g ann malId fuel cur vis acc rels pr pe hcv hr hf he hk hd
    exact traceAux_detNone g ann malId fuel cur vis acc rels pr pe hcv hr hf he hk hd

/-- C10 witness: on a graph whose every request throws, node 9 is returned as
its own root. -/
theorem tracer_total_witness :
    traceToRootSeries gAllFail Announced.empty 9 = (9, []) :=
  tracer_total_under_failure.1 gAllFail Announced.empty 9 rfl

/-- C8: idempotence of item processing.  A MAL row whose `anime_id` is
already in `byMalId` produces no callback invocation, no stub line and no
set change; a Letterboxd item whose slug key is already in `byKey` likewise;
and a Letterboxd item whose final composite key is already in `byKey`
produces no callback invocation (hence no ledger line). -/
theorem ledger_idempotence :
    (∀ w username ann item, item.anime_id ∈ ann.byMalId →
      processMalEntry w username ann item = (ann, [], [])) ∧
    (∀ w username ann item, lbSlugKey item ∈ ann.byKey →
      processLetterboxdItem w username ann item = (ann, [])) ∧
    (∀ w username ann item,
      lbEntryKey (lbResolvedIds w item).1 (lbResolvedIds w item).2.1
        item.title item.year username ∈ ann.byKey →
      (processLetterboxdItem w username ann item).2 = []) := by
  refine ⟨?_, ?_, ?_⟩
  · intro w username ann item hmem
    by_cases hs : item.status = 6
    · simp [processMalEntry, hs, hmem]
    · simp [processMalEntry, hs]
  · intro w username ann item hmem
    simp [processLetterboxdItem, hmem]
  · intro w username ann item hkey
    by_cases hs : lbSlugKey item ∈ ann.byKey
    · simp [processLetterboxdItem, hs]
    · simp [processLetterboxdItem, hs, hkey]

/-- C8 witness: re-processing MAL id 42 against a ledger already holding it,
and a Letterboxd item whose slug key is already present, are both no-ops. -/
theorem ledger_idempotence_witness :
    processMalEntry wMalTrivial "u" ⟨[], [42], []⟩ ⟨6, 42, none⟩ =
      (⟨[], [42], []⟩, [], []) ∧
    processLetterboxdItem wLbTrivial "u" ⟨["letterboxd:dune:2021"], [], []⟩
      ⟨"dune", none, "Dune", 2021⟩ =
      (⟨["letterboxd:dune:2021"], [], []⟩, []) :=
  ⟨ledger_idempotence.1 wMalTrivial "u" ⟨[], [42], []⟩ ⟨6, 42, none⟩ (by decide),
   ledger_idempotence.2.1 wLbTrivial "u" ⟨["letterboxd:dune:2021"], [], []⟩
     ⟨"dune", none, "Dune", 2021⟩ (by decide)⟩

/-- C9: two sequential calls through the same 200 ms rate limiter are
dispatched at least 200 ms apart, whatever the issue times and timer slack
(in particular for a second call issued 10 ms after the first dispatch); and
the Jikan (anime metadata) minimum interval of 350 ms is a strictly slower
ceiling than the Letterboxd (watchlist site) one of 200 ms. -/
theorem rate_limiter_spacing :
    (∀ last t1 t2 e1 e2,
      rateLimitDispatch LETTERBOXD_MIN_DELAY last t1 e1 ≤ t2 →
      rateLimitDispatch LETTERBOXD_MIN_DELAY last t1 e1 + 200 ≤
        rateLimitDispatch LETTERBOXD_MIN_DELAY
          (rateLimitDispatch LETTERBOXD_MIN_DELAY last t1 e1) t2 e2) ∧
    (∀ d1, rateLimitDispatch LETTERBOXD_MIN_DELAY d1 (d1 + 10) 0 = d1 + 200) ∧
    LETTERBOXD_MIN_DELAY < JIKAN_MIN_DELAY := by
  refine ⟨?_, ?_, by decide⟩
  · intro last t1 t2 e1 e2 h2
    simp only [rateLimitDispatch, LETTERBOXD_MIN_DELAY] at h2 ⊢
    split_ifs at h2 ⊢ <;> omega
  · intro d1
    simp only [rateLimitDispatch, LETTERBOXD_MIN_DELAY]
    split_ifs <;> omega

/-- C9 witness: first call issued at time 0 (dispatch 200), second call
issued at 210 — its dispatch is at or after 400. -/
theorem rate_limiter_spacing_witness :
    rateLimitDispatch LETTERBOXD_MIN_DELAY 0 0 0 + 200 ≤
      rateLimitDispatch LETTERBOXD_MIN_DELAY
        (rateLimitDispatch LETTERBOXD_MIN_DELAY 0 0 0) 210 0 :=
  rate_limiter_spacing.1 0 0 210 0 0 (by decide)

end Listarr
